import Mathlib

/-!
Shallow embedding of `AnimatablePortraitReconLoss`
(src/portrait4d/training/loss/loss_recon_v1.py).

The external collaborators (generator, discriminator, frozen feature
extractors, lpips) are abstracted: the scalar results of their calls are
parameters of the embedded functions, exactly as the spec designates them
external interfaces.  Tensors whose per-element structure matters for a
claim (swap conditioning, motion scales) are embedded as functions
`ℕ → _` over batch indices; scalar losses are `ℚ`.  Python float
arithmetic on schedule quantities is exact on the values involved, so it
is embedded as exact rational arithmetic.  Python exceptions
(UnboundLocalError / TypeError) are embedded as `Except String` /
an `error` field.
-/

/-- The phase tags accepted by `accumulate_gradients`. -/
inductive Phase where
  | none | Gmain | Greg | Gboth | Dmain | Dreg | Dboth | DPatchReg | DPatchBoth
deriving DecidableEq, Repr

/-- Configuration of the loss engine: the constructor arguments of
`AnimatablePortraitReconLoss` (plus the capability flags of the generator
`G` and the discriminator `D` that `accumulate_gradients` reads). -/
structure Cfg where
  gmain : ℚ
  r1_gamma : ℚ
  r1_gamma_patch : ℚ
  r1_gamma_uv : ℚ
  r1_gamma_seg : ℚ
  blur_init_sigma : ℚ
  blur_fade_kimg : ℚ
  r1_gamma_init : ℚ
  r1_gamma_fade_kimg : ℚ
  neural_rendering_resolution_initial : ℕ
  neural_rendering_resolution_final : Option ℕ
  neural_rendering_resolution_fade_kimg : ℚ
  discrimination_kimg : ℕ
  dual_discrimination : Bool
  use_D : Bool
  /-- `G.rendering_kwargs.get('density_reg', 0)` -/
  density_reg : ℚ
  /-- `G.rendering_kwargs['reg_type'] == 'l1'` -/
  reg_type_l1 : Bool
  /-- `G.has_superresolution` -/
  has_superresolution : Bool
  /-- `D.has_uv` -/
  d_has_uv : Bool
  /-- `D.has_seg` -/
  d_has_seg : Bool
deriving DecidableEq, Repr

/-- Degenerate phase collapse at the top of `accumulate_gradients`
(lines 216-221): each `{...}.get(phase, phase)` remap applies when the
corresponding regularization weight is zero. -/
def collapsePhase (cfg : Cfg) (p : Phase) : Phase :=
  let p1 := if cfg.density_reg = 0 then
      (match p with | .Greg => .none | .Gboth => .Gmain | q => q) else p
  let p2 := if cfg.r1_gamma = 0 then
      (match p1 with | .Dreg => .none | .Dboth => .Dmain | q => q) else p1
  if cfg.r1_gamma_patch = 0 then
      (match p2 with | .DPatchReg => .none | .DPatchBoth => .Dmain | q => q) else p2

/-- Line 223: `blur_sigma = 0` — the blur sigma used by the step is the
constant 0, whatever the configuration or the images-seen counter. -/
def blurSigmaUsed (_cfg : Cfg) (_cur_nimg : ℕ) : ℚ := 0

/-- Line 224: `r1_gamma = self.r1_gamma` — the R1 gamma used by the step
is the configured `r1_gamma`, whatever the images-seen counter. -/
def r1GammaUsed (cfg : Cfg) (_cur_nimg : ℕ) : ℚ := cfg.r1_gamma

/-- Modelled from the spec (§4.1), not from the code: the clamped linear
fade the spec prescribes for the blur sigma when `blur_fade_kimg` is
positive — interpolation from the initial value `blur_init_sigma` down over
the fade window, fraction clamped to [0,1].  Used only to compare the
spec's fade pattern against what the code computes. -/
def specBlurSigma (cfg : Cfg) (cur_nimg : ℕ) : ℚ :=
  cfg.blur_init_sigma *
    (1 - min (max ((cur_nimg : ℚ) / (cfg.blur_fade_kimg * 1000)) 0) 1)

/-- Modelled from the spec (§4.1), not from the code: the clamped linear
fade the spec prescribes for the R1 gamma when `r1_gamma_fade_kimg` is
positive — interpolation from `r1_gamma_init` to `r1_gamma` over the fade
window, fraction clamped to [0,1]. -/
def specR1Gamma (cfg : Cfg) (cur_nimg : ℕ) : ℚ :=
  let alpha := min (max ((cur_nimg : ℚ) / (cfg.r1_gamma_fade_kimg * 1000)) 0) 1
  cfg.r1_gamma_init * (1 - alpha) + cfg.r1_gamma * alpha

/-- Line 230: the fade fraction of the neural-rendering-resolution
schedule, `min(max((cur_nimg - discrimination_kimg*1e3) /
(neural_rendering_resolution_fade_kimg*1e3), 0), 1)`.  (Rational
division by zero yields 0 here, whereas Python raises
`ZeroDivisionError` when the fade window is 0; the schedule theorems
therefore assume a positive fade window.) -/
def fadeAlpha (cfg : Cfg) (cur_nimg : ℕ) : ℚ :=
  min (max (((cur_nimg : ℚ) - (cfg.discrimination_kimg : ℚ) * 1000) /
      (cfg.neural_rendering_resolution_fade_kimg * 1000)) 0) 1

/-- `np.rint`: round to the nearest integer, ties to even. -/
def rintQ (q : ℚ) : ℤ :=
  if q - (⌊q⌋ : ℚ) < 1/2 then ⌊q⌋
  else if 1/2 < q - (⌊q⌋ : ℚ) then ⌊q⌋ + 1
  else if ⌊q⌋ % 2 = 0 then ⌊q⌋ else ⌊q⌋ + 1

/-- Lines 229-235: the neural rendering resolution for the step.  When a
final resolution is configured it is
`rint(initial*(1-alpha) + final*alpha)`; otherwise the initial
resolution unchanged. -/
def neuralRenderingResolution (cfg : Cfg) (cur_nimg : ℕ) : ℤ :=
  match cfg.neural_rendering_resolution_final with
  | some fin =>
      rintQ ((cfg.neural_rendering_resolution_initial : ℚ) * (1 - fadeAlpha cfg cur_nimg)
        + (fin : ℚ) * fadeAlpha cfg cur_nimg)
  | none => cfg.neural_rendering_resolution_initial

/-- Batch inputs of `run_G` relevant to swap conditioning (lines 164-181):
appearance images, motion-source images, and the two motion embeddings,
indexed by batch element.  Image and embedding contents are abstract. -/
structure SwapBatch (Img Emb : Type) where
  n : ℕ
  imgs_app : ℕ → Img
  imgs_mot : ℕ → Img
  motions_app : ℕ → Emb
  motions : ℕ → Emb

/-- Lines 172-179: `imgs_app_conditioning`.  `prob` is the per-element
uniform draw of `torch.rand` (values in [0,1)); element `i` is swapped
exactly when `prob i < swapping_prob`.  When `swapping_prob` is `none`,
no substitution occurs. -/
def imgsAppCond {Img Emb : Type} (b : SwapBatch Img Emb) (sp : Option ℚ)
    (prob : ℕ → ℚ) (i : ℕ) : Img :=
  match sp with
  | Option.none => b.imgs_app i
  | Option.some p => if prob i < p then b.imgs_mot i else b.imgs_app i

/-- Lines 171, 176, 180: `motion_scale_conditioning` before the
half-static override.  The motion-scale tensor is `ones * motion_scale`,
so each element carries the scalar `ms`; a swapped element is zeroed. -/
def motionScaleCond (ms : ℚ) (sp : Option ℚ) (prob : ℕ → ℚ) (i : ℕ) : ℚ :=
  match sp with
  | Option.none => ms
  | Option.some p => if prob i < p then 0 else ms

/-- Lines 177, 181: `motions_app_conditioning`. -/
def motionsAppCond {Img Emb : Type} (b : SwapBatch Img Emb) (sp : Option ℚ)
    (prob : ℕ → ℚ) (i : ℕ) : Emb :=
  match sp with
  | Option.none => b.motions_app i
  | Option.some p => if prob i < p then b.motions i else b.motions_app i

/-- Lines 185-192: the effective motion scale after the half-static
override.  `num_static = n // 2`; indices at or past it form the second
half.  With `swapping_prob` set, the second half is rebuilt from a fresh
draw `probStatic` against the ORIGINAL `motion_scale` tensor
(`torch.where(probStatic < 1 - swapping_prob, zeros, motion_scale[num_static:])`),
not from `motion_scale_conditioning`. -/
def motionScaleFinal (n : ℕ) (ms : ℚ) (sp : Option ℚ) (halfStatic : Bool)
    (prob probStatic : ℕ → ℚ) (i : ℕ) : ℚ :=
  if halfStatic then
    let numStatic := n / 2
    if i < numStatic then motionScaleCond ms sp prob i
    else
      match sp with
      | Option.none => ms * 0
      | Option.some p => if probStatic (i - numStatic) < 1 - p then 0 else ms
  else motionScaleCond ms sp prob i

/-- Scalar results of the external calls made in the `Gmain` branch
(lines 268-357).  `lpips` / L1 values are the four summands of lines
286-295 (`_bg_seg` is the summand used when `real_feature_recon_bg` is
`None`, `_bg_feat` the one used otherwise); `cosSims` are the per-sample
`F.cosine_similarity(gen_id, real_id)` values; the `has_*` flags record
which optional ground-truth channels (`real_depth_recon`,
`real_feature_recon`, `real_triplane_recon`, `real_feature_recon_bg`)
are not `None`; `adv` is `softplus(-gen_logits).mean()`. -/
structure GmainInputs where
  lpips_sr : ℚ
  lpips_raw : ℚ
  lpips_wobg : ℚ
  lpips_bg_seg : ℚ
  lpips_bg_feat : ℚ
  l1_sr : ℚ
  l1_raw : ℚ
  l1_wobg : ℚ
  l1_bg_seg : ℚ
  l1_bg_feat : ℚ
  cosSims : List ℚ
  loss_seg : ℚ
  depth_term : ℚ
  feature_fg_term : ℚ
  feature_bg_term : ℚ
  triplane_term : ℚ
  has_depth : Bool
  has_feature : Bool
  has_triplane : Bool
  has_feature_bg : Bool
  adv : ℚ
deriving DecidableEq, Repr

/-- Line 306: `loss_id = torch.mean(1 - F.cosine_similarity(gen_id, real_id))`,
over the per-sample cosine similarities of the frozen identity embeddings
of the landmark-aligned generated and (detached) real super-res images. -/
def lossIdRaw (cs : List ℚ) : ℚ := (cs.map (fun c => 1 - c)).sum / cs.length

/-- Lines 306-311: the identity loss actually contributed — zeroed while
`cur_nimg < 400 * 1e3`. -/
def lossIdUsed (cur_nimg : ℕ) (cs : List ℚ) : ℚ :=
  if cur_nimg < 400000 then 0 else lossIdRaw cs

/-- Lines 285-288: the perceptual term; the background summand falls back
to the segmentation-derived masked background when
`real_feature_recon_bg` is `None`. -/
def lpipsTotal (inp : GmainInputs) : ℚ :=
  inp.lpips_sr + inp.lpips_raw + inp.lpips_wobg +
    (if inp.has_feature_bg then inp.lpips_bg_feat else inp.lpips_bg_seg)

/-- Lines 292-295: the pixel L1 term, same structure. -/
def l1Total (inp : GmainInputs) : ℚ :=
  inp.l1_sr + inp.l1_raw + inp.l1_wobg +
    (if inp.has_feature_bg then inp.l1_bg_feat else inp.l1_bg_seg)

/-- Lines 317-321: depth loss, only when ground-truth depth is supplied
and `cur_nimg < 400 * 1e3`; otherwise `0.`. -/
def depthTerm (inp : GmainInputs) (cur_nimg : ℕ) : ℚ :=
  if inp.has_depth = true ∧ cur_nimg < 400000 then inp.depth_term else 0

/-- Lines 324-331: feature-map loss.  When active, line 328 also reads
`real_feature_recon_bg`; if that channel is `None` the subtraction
`real_feature_recon_bg - gen_feature_bg` raises a `TypeError`. -/
def featureTermE (inp : GmainInputs) (cur_nimg : ℕ) : Except String ℚ :=
  if inp.has_feature = true ∧ cur_nimg < 400000 then
    if inp.has_feature_bg then Except.ok (inp.feature_fg_term + inp.feature_bg_term)
    else Except.error "TypeError: unsupported operand for -: NoneType and Tensor"
  else Except.ok 0

/-- Lines 334-344: triplane-feature loss, gated identically. -/
def triplaneTerm (inp : GmainInputs) (cur_nimg : ℕ) : ℚ :=
  if inp.has_triplane = true ∧ cur_nimg < 400000 then inp.triplane_term else 0

/-- Line 346: `loss_recon = loss_recon_lpips + loss_recon_l1 +
loss_recon_seg*0.3 + loss_recon_depth + loss_recon_feature +
loss_recon_triplane*0.1 + loss_id`, given the feature term. -/
def lossReconParts (inp : GmainInputs) (cur_nimg : ℕ) (ft : ℚ) : ℚ :=
  lpipsTotal inp + l1Total inp + inp.loss_seg * (3/10) + depthTerm inp cur_nimg
    + ft + triplaneTerm inp cur_nimg * (1/10) + lossIdUsed cur_nimg inp.cosSims

/-- The reconstruction loss of the `Gmain` branch, propagating the
possible `TypeError` of the feature term. -/
def lossReconE (inp : GmainInputs) (cur_nimg : ℕ) : Except String ℚ :=
  (featureTermE inp cur_nimg).map (lossReconParts inp cur_nimg)

/-- Lines 349, 414: the discriminator is consulted only once the
images-seen counter reaches `discrimination_kimg * 1e3` and `use_D`. -/
def dInvoked (cfg : Cfg) (cur_nimg : ℕ) : Bool :=
  decide (cfg.discrimination_kimg * 1000 ≤ cur_nimg) && cfg.use_D

/-- One `backward()` call: the scalar actually back-propagated and
whether the computation graph behind it contains generator /
discriminator evaluations. -/
structure BackwardPass where
  loss : ℚ
  throughG : Bool
  throughD : Bool
deriving DecidableEq, Repr

/-- Result of one `accumulate_gradients` call: the backward passes
issued, in order, and the uncaught Python exception (if any) that
aborted the call after those passes. -/
structure StepResult where
  passes : List BackwardPass
  error : Option String
deriving DecidableEq, Repr

/-- Abstract per-sample sums of squared discriminator-input gradients,
one per channel group: `r1_grads_*.square().sum([1,2,3])` for the
super-res image, raw image, uv, and seg channels. -/
structure R1Grads where
  gimg : ℚ
  graw : ℚ
  guv : ℚ
  gseg : ℚ
deriving DecidableEq, Repr

/-- Lines 453-488: the R1 penalty `loss_Dr1`.
Dual discrimination (lines 454-478): super-res and raw channels always
contribute; uv / seg contribute when the discriminator declares the
capability and are `zeros_like` otherwise; combined as
`r1_penalty*(r1_gamma/2) + r1_penalty_uv*(r1_gamma_uv/2) +
r1_penalty_seg*(r1_gamma_seg/2)` (line 488).
Single discrimination (lines 479-487): `r1_penalty` is the single image
channel and `r1_penalty_uv` is zeroed, but `r1_penalty_seg` is never
assigned on this path, so line 488 raises `UnboundLocalError`. -/
def r1LossE (cfg : Cfg) (g : R1Grads) : Except String ℚ :=
  if cfg.dual_discrimination then
    if cfg.has_superresolution then
      let pen := g.gimg + g.graw
      let penUv := if cfg.d_has_uv then g.guv else 0
      let penSeg := if cfg.d_has_seg then g.gseg else 0
      Except.ok (pen * (cfg.r1_gamma / 2) + penUv * (cfg.r1_gamma_uv / 2)
        + penSeg * (cfg.r1_gamma_seg / 2))
    else Except.error "UnboundLocalError: local variable r1_grads_image referenced before assignment"
  else
    Except.error "UnboundLocalError: local variable r1_penalty_seg referenced before assignment"

/-- Lines 268-363: the `Gmain`/`Gboth` branch.  One backward pass of
`loss_G.mul(gain)` with `loss_G = loss_recon.mean() +
loss_Gmain.mean()*gmain` when the adversarial term is present
(`cur_nimg >= discrimination_kimg*1e3 and use_D`, lines 349-357) and
`loss_recon.mean()` otherwise; the pass runs through the discriminator
graph exactly when the adversarial term is present. -/
def gmainBranch (cfg : Cfg) (pc : Phase) (cur_nimg : ℕ) (gain : ℚ)
    (inp : GmainInputs) : Except String (List BackwardPass) :=
  if pc = Phase.Gmain ∨ pc = Phase.Gboth then
    match lossReconE inp cur_nimg with
    | Except.error e => Except.error e
    | Except.ok lr =>
        let lossG := if dInvoked cfg cur_nimg then lr + inp.adv * cfg.gmain else lr
        Except.ok [⟨lossG * gain, true, dInvoked cfg cur_nimg⟩]
  else Except.ok []

/-- Lines 366-411: the density-TV branch, guarded by
`phase in ['Greg','Gboth'] and density_reg > 0 and reg_type == 'l1'`.
`tvLoss` abstracts the computed `TVloss` (the l1 distance between base
and perturbed densities, scaled by `density_reg`, averaged over the
ensemble when `sample_mixed` returns a tuple); the backward pass is
`TVloss.mul(gain)` and runs only through the generator. -/
def gregBranch (cfg : Cfg) (pc : Phase) (gain tvLoss : ℚ) : List BackwardPass :=
  if (pc = Phase.Greg ∨ pc = Phase.Gboth) ∧ 0 < cfg.density_reg ∧ cfg.reg_type_l1 = true then
    [⟨tvLoss * gain, true, false⟩]
  else []

/-- Lines 414-427: the `Dgen` backward pass,
`softplus(gen_logits).mean().mul(gain)`; its graph contains both the
generator (`run_G` produced `gen_img`) and the discriminator. -/
def dgenBranch (cfg : Cfg) (pc : Phase) (cur_nimg : ℕ) (gain dgenMean : ℚ) :
    List BackwardPass :=
  if dInvoked cfg cur_nimg = true ∧ (pc = Phase.Dmain ∨ pc = Phase.Dboth) then
    [⟨dgenMean * gain, true, true⟩]
  else []

/-- Lines 431-493: the `Dreal`/`Dr1` backward pass on detached real
images, `(loss_Dreal + loss_Dr1).mean().mul(gain)`.  `loss_Dreal` is
present for `Dmain`/`Dboth`, `loss_Dr1` for `Dreg`/`Dboth`; the R1
computation can raise (see `r1LossE`), aborting before this backward. -/
def drealBranch (cfg : Cfg) (pc : Phase) (cur_nimg : ℕ) (gain drealMean : ℚ)
    (g : R1Grads) : Except String (List BackwardPass) :=
  if dInvoked cfg cur_nimg = true ∧ (pc = Phase.Dmain ∨ pc = Phase.Dreg ∨ pc = Phase.Dboth) then
    let lossDreal := if pc = Phase.Dmain ∨ pc = Phase.Dboth then drealMean else 0
    match (if pc = Phase.Dreg ∨ pc = Phase.Dboth then r1LossE cfg g else Except.ok 0) with
    | Except.error e => Except.error e
    | Except.ok dr1 => Except.ok [⟨(lossDreal + dr1) * gain, false, true⟩]
  else Except.ok []

/-- `accumulate_gradients` (lines 214-493) as a whole: phase collapse,
then the unconditional prologue (lines 238-264) — which on
`has_superresolution = False` reads the never-assigned local
`real_img_raw` at line 261 and raises before any phase branch — then the
four dispatch branches in program order, recording every issued backward
pass and stopping at the first uncaught exception. -/
def runStep (cfg : Cfg) (p : Phase) (cur_nimg : ℕ) (gain : ℚ)
    (inp : GmainInputs) (tvLoss dgenMean drealMean : ℚ) (g : R1Grads) : StepResult :=
  let pc := collapsePhase cfg p
  if cfg.has_superresolution then
    match gmainBranch cfg pc cur_nimg gain inp with
    | Except.error e => ⟨[], Option.some e⟩
    | Except.ok l1 =>
        let l2 := gregBranch cfg pc gain tvLoss
        let l3 := dgenBranch cfg pc cur_nimg gain dgenMean
        match drealBranch cfg pc cur_nimg gain drealMean g with
        | Except.error e => ⟨l1 ++ l2 ++ l3, Option.some e⟩
        | Except.ok l4 => ⟨l1 ++ l2 ++ l3 ++ l4, Option.none⟩
  else ⟨[], Option.some "UnboundLocalError: local variable real_img_raw referenced before assignment"⟩

/-- The number of backward passes an exception-free invocation issues,
as a function of configuration, collapsed phase and images-seen
counter. -/
def passCount (cfg : Cfg) (pc : Phase) (cur_nimg : ℕ) : ℕ :=
  (if pc = Phase.Gmain ∨ pc = Phase.Gboth then 1 else 0)
  + (if (pc = Phase.Greg ∨ pc = Phase.Gboth) ∧ 0 < cfg.density_reg ∧ cfg.reg_type_l1 = true
      then 1 else 0)
  + (if dInvoked cfg cur_nimg = true ∧ (pc = Phase.Dmain ∨ pc = Phase.Dboth) then 1 else 0)
  + (if dInvoked cfg cur_nimg = true ∧ (pc = Phase.Dmain ∨ pc = Phase.Dreg ∨ pc = Phase.Dboth)
      then 1 else 0)

/-- A concrete configuration with every discussed mechanism armed:
nonzero regularization weights, `density_reg = 1` with the `'l1'` type,
dual discrimination, adversarial training on with a 1-kimg warm-up, and
a resolution fade from 64 to 128 over 1 kimg. -/
def cfgBase : Cfg where
  gmain := 1
  r1_gamma := 10
  r1_gamma_patch := 10
  r1_gamma_uv := 30
  r1_gamma_seg := 10
  blur_init_sigma := 0
  blur_fade_kimg := 0
  r1_gamma_init := 0
  r1_gamma_fade_kimg := 0
  neural_rendering_resolution_initial := 64
  neural_rendering_resolution_final := Option.some 128
  neural_rendering_resolution_fade_kimg := 1
  discrimination_kimg := 1
  dual_discrimination := true
  use_D := true
  density_reg := 1
  reg_type_l1 := true
  has_superresolution := true
  d_has_uv := true
  d_has_seg := true

/-- `cfgBase` with positive blur / R1-gamma fade windows. -/
def cfgFade : Cfg :=
  { cfgBase with blur_init_sigma := 10, blur_fade_kimg := 10,
                 r1_gamma_init := 1, r1_gamma_fade_kimg := 10 }

/-- `cfgBase` in single-discrimination mode. -/
def cfgSingle : Cfg := { cfgBase with dual_discrimination := false }

/-- `cfgBase` with a generator lacking a super-resolution stage. -/
def cfgNoSr : Cfg := { cfgBase with has_superresolution := false }

/-- `cfgBase` with adversarial training disabled. -/
def cfgNoD : Cfg := { cfgBase with use_D := false }

/-- Concrete abstract-scalar inputs for the `Gmain` branch: perceptual
super-res distance 1, everything else 0, a single identity cosine
similarity of 1, all optional ground-truth channels absent,
adversarial term 2. -/
def inpZero : GmainInputs where
  lpips_sr := 1
  lpips_raw := 0
  lpips_wobg := 0
  lpips_bg_seg := 0
  lpips_bg_feat := 5
  l1_sr := 0
  l1_raw := 0
  l1_wobg := 0
  l1_bg_seg := 0
  l1_bg_feat := 5
  cosSims := [1]
  loss_seg := 0
  depth_term := 7
  feature_fg_term := 7
  feature_bg_term := 7
  triplane_term := 7
  has_depth := false
  has_feature := false
  has_triplane := false
  has_feature_bg := false
  adv := 2

/-- Concrete squared-gradient sums. -/
def gZero : R1Grads := ⟨1, 2, 3, 4⟩

/-- A concrete swap draw: every batch element draws 3/10. -/
def probSwapCx : ℕ → ℚ := fun _ => 3/10

/-- A concrete half-static draw: every element draws 9/10. -/
def probStaticCx : ℕ → ℚ := fun _ => 9/10

/-- A concrete two-element conditioning batch over rational "images"
and "embeddings". -/
def batchCx : SwapBatch ℚ ℚ :=
  ⟨2, fun i => 10 + i, fun i => 20 + i, fun i => 30 + i, fun i => 40 + i⟩

theorem rintQ_natCast (m : ℕ) : rintQ (m : ℚ) = m := by
  have hf : ⌊(m : ℚ)⌋ = (m : ℤ) := Int.floor_natCast m
  simp [rintQ, hf]

/-- C2 (counterexample): with a positive blur fade window
(`blur_fade_kimg = 10`, `blur_init_sigma = 10`) and a positive R1-gamma
fade window (`r1_gamma_fade_kimg = 10`, `r1_gamma_init = 1`), at
`cur_nimg = 0` any clamped linear fade from the initial value would give
blur sigma 10 and R1 gamma 1, but the step uses blur sigma 0 and R1
gamma 10: the fade machinery of §4.1 does not exist for these two
quantities. -/
theorem c2_counterexample :
    (0 < cfgFade.blur_fade_kimg ∧ 0 < cfgFade.r1_gamma_fade_kimg) ∧
    specBlurSigma cfgFade 0 = 10 ∧ blurSigmaUsed cfgFade 0 = 0 ∧
    specR1Gamma cfgFade 0 = 1 ∧ r1GammaUsed cfgFade 0 = 10 := by
  refine ⟨⟨by norm_num [cfgFade, cfgBase], by norm_num [cfgFade, cfgBase]⟩, ?_, rfl, ?_, ?_⟩
  · norm_num [specBlurSigma, cfgFade, cfgBase]
  · norm_num [specR1Gamma, cfgFade, cfgBase]
  · norm_num [r1GammaUsed, cfgFade, cfgBase]

/-- C2 (amended): lines 223-224 bind the blur sigma to the constant 0
and the R1 gamma to the configured `r1_gamma`, for every configuration
and every images-seen counter; the configured fade windows
(`blur_fade_kimg`, `r1_gamma_fade_kimg`) are stored but never read by
`accumulate_gradients`, so no fade machinery exists for them — only the
neural rendering resolution follows the clamped linear fade. -/
theorem c2_amended (cfg : Cfg) (cur_nimg : ℕ) :
    blurSigmaUsed cfg cur_nimg = 0 ∧ r1GammaUsed cfg cur_nimg = cfg.r1_gamma :=
  ⟨rfl, rfl⟩

/-- C7: swap conditioning in `run_G`.  With `swapping_prob` unset no
substitution occurs; with `swapping_prob = 0` (and draws in [0,1)) every
element keeps the unswapped appearance image, motion scale and
embedding; with `swapping_prob = 1` every element is fully swapped; in
general element `i` is swapped exactly when its independent uniform draw
falls below `swapping_prob`, and a swapped element has the motion image
substituted for the appearance image, its motion scale zeroed, and the
motion embedding substituted for the appearance embedding. -/
theorem c7_swap_conditioning {Img Emb : Type} (b : SwapBatch Img Emb) (ms : ℚ)
    (prob : ℕ → ℚ) (i : ℕ) :
    (imgsAppCond b Option.none prob i = b.imgs_app i ∧
     motionScaleCond ms Option.none prob i = ms ∧
     motionsAppCond b Option.none prob i = b.motions_app i) ∧
    (0 ≤ prob i →
      imgsAppCond b (Option.some 0) prob i = b.imgs_app i ∧
      motionScaleCond ms (Option.some 0) prob i = ms ∧
      motionsAppCond b (Option.some 0) prob i = b.motions_app i) ∧
    (prob i < 1 →
      imgsAppCond b (Option.some 1) prob i = b.imgs_mot i ∧
      motionScaleCond ms (Option.some 1) prob i = 0 ∧
      motionsAppCond b (Option.some 1) prob i = b.motions i) ∧
    (∀ p : ℚ,
      (prob i < p →
        imgsAppCond b (Option.some p) prob i = b.imgs_mot i ∧
        motionScaleCond ms (Option.some p) prob i = 0 ∧
        motionsAppCond b (Option.some p) prob i = b.motions i) ∧
      (p ≤ prob i →
        imgsAppCond b (Option.some p) prob i = b.imgs_app i ∧
        motionScaleCond ms (Option.some p) prob i = ms ∧
        motionsAppCond b (Option.some p) prob i = b.motions_app i)) := by
  refine ⟨⟨rfl, rfl, rfl⟩, ?_, ?_, ?_⟩
  · intro h
    simp [imgsAppCond, motionScaleCond, motionsAppCond, not_lt.mpr h]
  · intro h
    simp [imgsAppCond, motionScaleCond, motionsAppCond, h]
  · intro p
    constructor
    · intro h
      simp [imgsAppCond, motionScaleCond, motionsAppCond, h]
    · intro h
      simp [imgsAppCond, motionScaleCond, motionsAppCond, not_lt.mpr h]

/-- C7 (witness): on the concrete batch `batchCx`, element 0 with draw
3/10 is fully swapped under `swapping_prob = 1` and untouched under
`swapping_prob = 0` or an unset `swapping_prob`. -/
theorem c7_swap_conditioning_witness :
    (imgsAppCond batchCx Option.none probSwapCx 0 = batchCx.imgs_app 0 ∧
     motionScaleCond 1 Option.none probSwapCx 0 = 1 ∧
     motionsAppCond batchCx Option.none probSwapCx 0 = batchCx.motions_app 0) ∧
    (imgsAppCond batchCx (Option.some 0) probSwapCx 0 = batchCx.imgs_app 0 ∧
     motionScaleCond 1 (Option.some 0) probSwapCx 0 = 1 ∧
     motionsAppCond batchCx (Option.some 0) probSwapCx 0 = batchCx.motions_app 0) ∧
    (imgsAppCond batchCx (Option.some 1) probSwapCx 0 = batchCx.imgs_mot 0 ∧
     motionScaleCond 1 (Option.some 1) probSwapCx 0 = 0 ∧
     motionsAppCond batchCx (Option.some 1) probSwapCx 0 = batchCx.motions 0) := by
  have h := c7_swap_conditioning batchCx 1 probSwapCx 0
  exact ⟨h.1, h.2.1 (by norm_num [probSwapCx]), h.2.2.1 (by norm_num [probSwapCx])⟩

/-- C9 (counterexample): batch of 2, base motion scale 1,
`swapping_prob = 1/2`, `half_static` on.  Element 1 (second half) draws
3/10 < 1/2, so swap conditioning zeroes its motion scale; the fresh
half-static draw is 9/10 ≥ 1 − 1/2, so line 191 restores the ORIGINAL
scale 1 from `motion_scale[num_static:]` — the element ends up with a
nonzero effective motion scale although its swap draw had zeroed it. -/
theorem c9_counterexample :
    motionScaleCond 1 (Option.some (1/2)) probSwapCx 1 = 0 ∧
    motionScaleFinal 2 1 (Option.some (1/2)) true probSwapCx probStaticCx 1 = 1 := by
  constructor
  · norm_num [motionScaleCond, probSwapCx]
  · norm_num [motionScaleFinal, probSwapCx, probStaticCx]

/-- C9 (amended): with `half_static` enabled, every second-half element
has its effective motion scale forced to zero deterministically when
`swapping_prob` is unset; when `swapping_prob = p` is set, the
second-half scale is decided solely by the fresh half-static draw — zero
when that draw is below `1 − p`, and otherwise the ORIGINAL base motion
scale, discarding (rather than composing with) whatever the swap draw
did to that element's conditioned scale.  First-half elements keep their
swap-conditioned scale. -/
theorem c9_half_static_amended (n : ℕ) (ms : ℚ) (prob probStatic : ℕ → ℚ)
    (i : ℕ) (hi : n / 2 ≤ i) :
    (motionScaleFinal n ms Option.none true prob probStatic i = 0) ∧
    (∀ p : ℚ,
      (probStatic (i - n / 2) < 1 - p →
        motionScaleFinal n ms (Option.some p) true prob probStatic i = 0) ∧
      (1 - p ≤ probStatic (i - n / 2) →
        motionScaleFinal n ms (Option.some p) true prob probStatic i = ms)) ∧
    (∀ sp : Option ℚ, ∀ j : ℕ, j < n / 2 →
      motionScaleFinal n ms sp true prob probStatic j = motionScaleCond ms sp prob j) := by
  have hni : ¬ i < n / 2 := not_lt.mpr hi
  refine ⟨?_, ?_, ?_⟩
  · simp [motionScaleFinal, hni]
  · intro p
    constructor
    · intro h
      simp [motionScaleFinal, hni, h]
    · intro h
      simp [motionScaleFinal, hni, not_lt.mpr h]
  · intro sp j hj
    simp [motionScaleFinal, hj]

/-- C9 (witness): concrete second-half element under an unset
`swapping_prob` is deterministically zeroed, and under
`swapping_prob = 1/2` the draw 9/10 ≥ 1/2 yields the original scale. -/
theorem c9_half_static_amended_witness :
    motionScaleFinal 2 1 Option.none true probSwapCx probStaticCx 1 = 0 ∧
    motionScaleFinal 2 1 (Option.some (1/2)) true probSwapCx probStaticCx 1 = 1 := by
  have h := c9_half_static_amended 2 1 probSwapCx probStaticCx 1 (by norm_num)
  exact ⟨h.1, (h.2.1 (1/2)).2 (by norm_num [probStaticCx])⟩

/-- C10: whenever `G.has_superresolution` is false, `accumulate_gradients`
reads the never-assigned local `real_img_raw` at line 261, in the
unconditional prologue — so it raises before any phase-specific
computation and issues no backward pass, for every phase including
`'none'`: every invocation requires a generator with a super-resolution
stage. -/
theorem c10_requires_superresolution (cfg : Cfg) (p : Phase) (cur_nimg : ℕ)
    (gain : ℚ) (inp : GmainInputs) (tvLoss dgenMean drealMean : ℚ) (g : R1Grads)
    (hsr : cfg.has_superresolution = false) :
    runStep cfg p cur_nimg gain inp tvLoss dgenMean drealMean g =
      ⟨[], Option.some "UnboundLocalError: local variable real_img_raw referenced before assignment"⟩ := by
  simp [runStep, hsr]

/-- C10 (witness): the concrete no-super-resolution configuration raises
at phase `'none'`. -/
theorem c10_requires_superresolution_witness :
    runStep cfgNoSr Phase.none 0 1 inpZero 0 0 0 gZero =
      ⟨[], Option.some "UnboundLocalError: local variable real_img_raw referenced before assignment"⟩ :=
  c10_requires_superresolution cfgNoSr Phase.none 0 1 inpZero 0 0 0 gZero rfl

/-- C5: when a final neural-rendering resolution is configured (and the
fade window is a positive number of kimg), the fade fraction is 0 at or
before `discrimination_kimg*1000` images seen, 1 at or after
`discrimination_kimg*1000 + neural_rendering_resolution_fade_kimg*1000`,
and monotonically non-decreasing in between; the output resolution
equals the initial resolution on the whole first region and the final
resolution on the whole second; with no final resolution configured the
output equals the initial resolution for every counter value. -/
theorem c5_resolution_schedule (cfg : Cfg) (fin : ℕ)
    (hfin : cfg.neural_rendering_resolution_final = Option.some fin)
    (hpos : 0 < cfg.neural_rendering_resolution_fade_kimg) :
    (∀ cur : ℕ, (cur : ℚ) ≤ (cfg.discrimination_kimg : ℚ) * 1000 →
       fadeAlpha cfg cur = 0) ∧
    (∀ cur : ℕ, (cfg.discrimination_kimg : ℚ) * 1000
        + cfg.neural_rendering_resolution_fade_kimg * 1000 ≤ (cur : ℚ) →
       fadeAlpha cfg cur = 1) ∧
    (∀ cur cur' : ℕ, cur ≤ cur' → fadeAlpha cfg cur ≤ fadeAlpha cfg cur') ∧
    (∀ cur : ℕ, (cur : ℚ) ≤ (cfg.discrimination_kimg : ℚ) * 1000 →
       neuralRenderingResolution cfg cur = cfg.neural_rendering_resolution_initial) ∧
    (∀ cur : ℕ, (cfg.discrimination_kimg : ℚ) * 1000
        + cfg.neural_rendering_resolution_fade_kimg * 1000 ≤ (cur : ℚ) →
       neuralRenderingResolution cfg cur = fin) ∧
    (∀ cfg' : Cfg, ∀ cur : ℕ,
       cfg'.neural_rendering_resolution_final = Option.none →
       neuralRenderingResolution cfg' cur = cfg'.neural_rendering_resolution_initial) := by
  have hd : (0 : ℚ) < cfg.neural_rendering_resolution_fade_kimg * 1000 := by positivity
  have h0 : ∀ cur : ℕ, (cur : ℚ) ≤ (cfg.discrimination_kimg : ℚ) * 1000 →
      fadeAlpha cfg cur = 0 := by
    intro cur h
    have hq : ((cur : ℚ) - (cfg.discrimination_kimg : ℚ) * 1000) /
        (cfg.neural_rendering_resolution_fade_kimg * 1000) ≤ 0 :=
      div_nonpos_iff.mpr (Or.inr ⟨by linarith, hd.le⟩)
    unfold fadeAlpha
    rw [max_eq_right hq]
    exact min_eq_left (by norm_num)
  have h1 : ∀ cur : ℕ, (cfg.discrimination_kimg : ℚ) * 1000
      + cfg.neural_rendering_resolution_fade_kimg * 1000 ≤ (cur : ℚ) →
      fadeAlpha cfg cur = 1 := by
    intro cur h
    have hq : (1 : ℚ) ≤ ((cur : ℚ) - (cfg.discrimination_kimg : ℚ) * 1000) /
        (cfg.neural_rendering_resolution_fade_kimg * 1000) :=
      (one_le_div hd).mpr (by linarith)
    unfold fadeAlpha
    exact min_eq_right (le_max_of_le_left hq)
  refine ⟨h0, h1, ?_, ?_, ?_, ?_⟩
  · intro cur cur' h
    unfold fadeAlpha
    have hc : (cur : ℚ) ≤ (cur' : ℚ) := by exact_mod_cast h
    gcongr
  · intro cur h
    unfold neuralRenderingResolution
    rw [hfin, h0 cur h]
    norm_num [rintQ_natCast]
  · intro cur h
    unfold neuralRenderingResolution
    rw [hfin, h1 cur h]
    norm_num [rintQ_natCast]
  · intro cfg' cur h
    simp [neuralRenderingResolution, h]

/-- C5 (witness): in `cfgBase` (initial 64, final 128, warm-up 1 kimg,
fade window 1 kimg) the fraction is 0 at 1000 images, 1 at 2000, and the
resolution hits 64 and 128 at those endpoints; with the final resolution
removed the resolution stays 64. -/
theorem c5_resolution_schedule_witness :
    fadeAlpha cfgBase 1000 = 0 ∧ fadeAlpha cfgBase 2000 = 1 ∧
    fadeAlpha cfgBase 1400 ≤ fadeAlpha cfgBase 1600 ∧
    neuralRenderingResolution cfgBase 1000 = 64 ∧
    neuralRenderingResolution cfgBase 2000 = 128 ∧
    neuralRenderingResolution
      { cfgBase with neural_rendering_resolution_final := Option.none } 500 = 64 := by
  have h := c5_resolution_schedule cfgBase 128 rfl (by norm_num [cfgBase])
  refine ⟨h.1 1000 (by norm_num [cfgBase]), h.2.1 2000 (by norm_num [cfgBase]),
    h.2.2.1 1400 1600 (by norm_num), h.2.2.2.1 1000 (by norm_num [cfgBase]),
    h.2.2.2.2.1 2000 (by norm_num [cfgBase]),
    h.2.2.2.2.2 _ 500 rfl⟩

/-- C4: in the `Gmain`/`Gboth` reconstruction loss, the identity term is
a hard zero for every images-seen counter strictly below 400000 —
independent of the identity embeddings, so the whole reconstruction loss
does not depend on them — and from 400000 on it equals
`mean(1 - cosine_similarity)` of the frozen identity embeddings of the
aligned generated and detached real super-res images. -/
theorem c4_identity_gate (cur_nimg : ℕ) (inp : GmainInputs) :
    (cur_nimg < 400000 →
      lossIdUsed cur_nimg inp.cosSims = 0 ∧
      ∀ cs' : List ℚ,
        lossReconE { inp with cosSims := cs' } cur_nimg = lossReconE inp cur_nimg) ∧
    (400000 ≤ cur_nimg →
      lossIdUsed cur_nimg inp.cosSims =
        ((inp.cosSims.map (fun c => 1 - c)).sum / inp.cosSims.length)) := by
  constructor
  · intro h
    constructor
    · simp [lossIdUsed, h]
    · intro cs'
      have hparts : ∀ ft : ℚ,
          lossReconParts { inp with cosSims := cs' } cur_nimg ft
            = lossReconParts inp cur_nimg ft := by
        intro ft
        simp [lossReconParts, lossIdUsed, h, lpipsTotal, l1Total, depthTerm,
          triplaneTerm]
      have hfeat : featureTermE { inp with cosSims := cs' } cur_nimg
          = featureTermE inp cur_nimg := by
        simp [featureTermE]
      rw [lossReconE, lossReconE, hfeat]
      cases hx : featureTermE inp cur_nimg <;> simp [Except.map, hparts]
  · intro h
    simp [lossIdUsed, lossIdRaw, not_lt.mpr h]

/-- C4 (witness): with the concrete inputs, the identity term is 0 at
counter 0 (whatever the cosine similarities) and equals the mean of
`1 - cosine_similarity` at counter 400000. -/
theorem c4_identity_gate_witness :
    (lossIdUsed 0 inpZero.cosSims = 0 ∧
      lossReconE { inpZero with cosSims := [1/2, 1/4] } 0 = lossReconE inpZero 0) ∧
    lossIdUsed 400000 inpZero.cosSims =
      ((inpZero.cosSims.map (fun c => 1 - c)).sum / inpZero.cosSims.length) := by
  have h := c4_identity_gate 0 inpZero
  have h' := c4_identity_gate 400000 inpZero
  exact ⟨⟨(h.1 (by norm_num)).1, (h.1 (by norm_num)).2 [1/2, 1/4]⟩, h'.2 (by norm_num)⟩

/-- C6: in the `Gmain`/`Gboth` branch, when the images-seen counter is
below `discrimination_kimg*1000` or `use_D` is false, the backward pass
is `loss_recon.mean() * gain` with no adversarial summand and no
discriminator evaluation in its graph (`loss_Gmain = None`, lines
356-357) — the term is absent, not zero-weighted; once the counter
reaches the threshold with `use_D` true, the adversarial term
`mean(softplus(-logit))` is added, scaled by `gmain`. -/
theorem c6_adversarial_gate (cfg : Cfg) (pc : Phase) (cur_nimg : ℕ) (gain : ℚ)
    (inp : GmainInputs) (lr : ℚ)
    (hpc : pc = Phase.Gmain ∨ pc = Phase.Gboth)
    (hlr : lossReconE inp cur_nimg = Except.ok lr) :
    ((cur_nimg < cfg.discrimination_kimg * 1000 ∨ cfg.use_D = false) →
        gmainBranch cfg pc cur_nimg gain inp =
          Except.ok [⟨lr * gain, true, false⟩]) ∧
    (cfg.discrimination_kimg * 1000 ≤ cur_nimg → cfg.use_D = true →
        gmainBranch cfg pc cur_nimg gain inp =
          Except.ok [⟨(lr + inp.adv * cfg.gmain) * gain, true, true⟩]) := by
  constructor
  · intro h
    have hd : dInvoked cfg cur_nimg = false := by
      rcases h with h | h
      · have hdec : decide (cfg.discrimination_kimg * 1000 ≤ cur_nimg) = false :=
          decide_eq_false (by omega)
        simp [dInvoked, hdec]
      · simp [dInvoked, h]
    simp [gmainBranch, hpc, hlr, hd]
  · intro h1 h2
    have hd : dInvoked cfg cur_nimg = true := by
      simp [dInvoked, h1, h2]
    simp [gmainBranch, hpc, hlr, hd]

/-- C6 (witness): with `cfgBase` (warm-up 1 kimg, `use_D` on) and the
concrete inputs (`loss_recon = 1`, adversarial mean 2, `gmain = 1`), the
branch backward is 1 before warm-up with no discriminator in the graph,
and (1 + 2·1) after warm-up with the discriminator in the graph. -/
theorem c6_adversarial_gate_witness :
    gmainBranch cfgBase Phase.Gmain 0 1 inpZero =
      Except.ok [⟨1 * 1, true, false⟩] ∧
    gmainBranch cfgBase Phase.Gmain 2000 1 inpZero =
      Except.ok [⟨(1 + inpZero.adv * cfgBase.gmain) * 1, true, true⟩] := by
  have hlr0 : lossReconE inpZero 0 = Except.ok 1 := by
    norm_num [lossReconE, featureTermE, lossReconParts, lpipsTotal, l1Total,
      depthTerm, triplaneTerm, lossIdUsed, inpZero, Except.map]
  have hlr2 : lossReconE inpZero 2000 = Except.ok 1 := by
    norm_num [lossReconE, featureTermE, lossReconParts, lpipsTotal, l1Total,
      depthTerm, triplaneTerm, lossIdUsed, inpZero, Except.map]
  have h0 := c6_adversarial_gate cfgBase Phase.Gmain 0 1 inpZero 1 (Or.inl rfl) hlr0
  have h2 := c6_adversarial_gate cfgBase Phase.Gmain 2000 1 inpZero 1 (Or.inl rfl) hlr2
  exact ⟨h0.1 (Or.inl (by norm_num [cfgBase])), h2.2 (by norm_num [cfgBase]) rfl⟩

/-- C8: a `Gmain` invocation with every optional ground-truth channel
absent (`real_depth_recon`, `real_feature_recon`, `real_triplane_recon`,
`real_feature_recon_bg` all `None`) and `use_D = False` completes
without raising, issues exactly one backward pass whose graph runs only
through the generator, the gated depth/feature/triplane terms contribute
exactly 0, and the background pair of the perceptual and L1 terms falls
back to the segmentation-derived masked background. -/
theorem c8_optional_channels_absent (cfg : Cfg) (cur_nimg : ℕ) (gain : ℚ)
    (inp : GmainInputs) (tvLoss dgenMean drealMean : ℚ) (g : R1Grads)
    (hsr : cfg.has_superresolution = true) (hD : cfg.use_D = false)
    (hdep : inp.has_depth = false) (hfeat : inp.has_feature = false)
    (htri : inp.has_triplane = false) (hbg : inp.has_feature_bg = false) :
    (runStep cfg Phase.Gmain cur_nimg gain inp tvLoss dgenMean drealMean g).error
        = Option.none ∧
    (runStep cfg Phase.Gmain cur_nimg gain inp tvLoss dgenMean drealMean g).passes
        = [⟨lossReconParts inp cur_nimg 0 * gain, true, false⟩] ∧
    lossReconParts inp cur_nimg 0
        = lpipsTotal inp + l1Total inp + inp.loss_seg * (3/10)
            + lossIdUsed cur_nimg inp.cosSims ∧
    lpipsTotal inp = inp.lpips_sr + inp.lpips_raw + inp.lpips_wobg + inp.lpips_bg_seg ∧
    l1Total inp = inp.l1_sr + inp.l1_raw + inp.l1_wobg + inp.l1_bg_seg := by
  have hpc : collapsePhase cfg Phase.Gmain = Phase.Gmain := by
    unfold collapsePhase
    split_ifs <;> rfl
  have hd : dInvoked cfg cur_nimg = false := by
    simp [dInvoked, hD]
  have hfe : featureTermE inp cur_nimg = Except.ok 0 := by
    simp [featureTermE, hfeat]
  have hlr : lossReconE inp cur_nimg = Except.ok (lossReconParts inp cur_nimg 0) := by
    rw [lossReconE, hfe]
    rfl
  have hgb : gmainBranch cfg Phase.Gmain cur_nimg gain inp
      = Except.ok [⟨lossReconParts inp cur_nimg 0 * gain, true, false⟩] := by
    simp [gmainBranch, hlr, hd]
  refine ⟨?_, ?_, ?_, ?_, ?_⟩
  · simp [runStep, hsr, hpc, hgb, gregBranch, dgenBranch, drealBranch, hd]
  · simp [runStep, hsr, hpc, hgb, gregBranch, dgenBranch, drealBranch, hd]
  · rw [lossReconParts]
    rw [depthTerm, triplaneTerm]
    simp [hdep, htri]
  · simp [lpipsTotal, hbg]
  · simp [l1Total, hbg]

/-- C8 (witness): the concrete no-discriminator configuration at phase
`Gmain` with all optional channels absent completes with no error and a
single generator-only backward pass. -/
theorem c8_optional_channels_absent_witness :
    (runStep cfgNoD Phase.Gmain 0 1 inpZero 0 0 0 gZero).error = Option.none ∧
    (runStep cfgNoD Phase.Gmain 0 1 inpZero 0 0 0 gZero).passes
      = [⟨lossReconParts inpZero 0 0 * 1, true, false⟩] := by
  have h := c8_optional_channels_absent cfgNoD 0 1 inpZero 0 0 0 gZero
    rfl rfl rfl rfl rfl rfl
  exact ⟨h.1, h.2.1⟩

theorem gmainBranch_gain_map (cfg : Cfg) (pc : Phase) (cur_nimg : ℕ) (gain : ℚ)
    (inp : GmainInputs) :
    gmainBranch cfg pc cur_nimg gain inp =
      Except.map (List.map (fun b => ⟨b.loss * gain, b.throughG, b.throughD⟩))
        (gmainBranch cfg pc cur_nimg 1 inp) := by
  unfold gmainBranch
  split_ifs <;> cases hfe : lossReconE inp cur_nimg <;> simp [Except.map, mul_one]

theorem gregBranch_gain_map (cfg : Cfg) (pc : Phase) (gain tvLoss : ℚ) :
    gregBranch cfg pc gain tvLoss =
      (gregBranch cfg pc 1 tvLoss).map
        (fun b => ⟨b.loss * gain, b.throughG, b.throughD⟩) := by
  unfold gregBranch
  split_ifs <;> simp [mul_one]

theorem dgenBranch_gain_map (cfg : Cfg) (pc : Phase) (cur_nimg : ℕ)
    (gain dgenMean : ℚ) :
    dgenBranch cfg pc cur_nimg gain dgenMean =
      (dgenBranch cfg pc cur_nimg 1 dgenMean).map
        (fun b => ⟨b.loss * gain, b.throughG, b.throughD⟩) := by
  unfold dgenBranch
  split_ifs <;> simp [mul_one]

theorem drealBranch_gain_map (cfg : Cfg) (pc : Phase) (cur_nimg : ℕ)
    (gain drealMean : ℚ) (g : R1Grads) :
    drealBranch cfg pc cur_nimg gain drealMean g =
      Except.map (List.map (fun b => ⟨b.loss * gain, b.throughG, b.throughD⟩))
        (drealBranch cfg pc cur_nimg 1 drealMean g) := by
  unfold drealBranch
  split_ifs <;> cases hr : r1LossE cfg g <;> simp [hr, Except.map, mul_one]

theorem runStep_gain_map (cfg : Cfg) (p : Phase) (cur_nimg : ℕ) (gain : ℚ)
    (inp : GmainInputs) (tvLoss dgenMean drealMean : ℚ) (g : R1Grads) :
    (runStep cfg p cur_nimg gain inp tvLoss dgenMean drealMean g).passes
      = (runStep cfg p cur_nimg 1 inp tvLoss dgenMean drealMean g).passes.map
          (fun b => ⟨b.loss * gain, b.throughG, b.throughD⟩) := by
  unfold runStep
  by_cases hsr : cfg.has_superresolution <;> simp only [hsr, if_true, if_false, Bool.false_eq_true]
  · rw [gmainBranch_gain_map, gregBranch_gain_map, dgenBranch_gain_map, drealBranch_gain_map]
    cases h1 : gmainBranch cfg (collapsePhase cfg p) cur_nimg 1 inp <;>
      cases h4 : drealBranch cfg (collapsePhase cfg p) cur_nimg 1 drealMean g <;>
        simp [Except.map]
  · simp

theorem gregBranch_length (cfg : Cfg) (pc : Phase) (gain tvLoss : ℚ) :
    (gregBranch cfg pc gain tvLoss).length =
      if (pc = Phase.Greg ∨ pc = Phase.Gboth) ∧ 0 < cfg.density_reg ∧ cfg.reg_type_l1 = true
      then 1 else 0 := by
  unfold gregBranch
  split_ifs <;> simp

theorem dgenBranch_length (cfg : Cfg) (pc : Phase) (cur_nimg : ℕ)
    (gain dgenMean : ℚ) :
    (dgenBranch cfg pc cur_nimg gain dgenMean).length =
      if dInvoked cfg cur_nimg = true ∧ (pc = Phase.Dmain ∨ pc = Phase.Dboth)
      then 1 else 0 := by
  unfold dgenBranch
  split_ifs <;> simp

theorem gregBranch_flags (cfg : Cfg) (pc : Phase) (gain tvLoss : ℚ) :
    ∀ b ∈ gregBranch cfg pc gain tvLoss, b.throughG = true ∧ b.throughD = false := by
  unfold gregBranch
  split_ifs <;> simp

theorem dgenBranch_flags (cfg : Cfg) (pc : Phase) (cur_nimg : ℕ)
    (gain dgenMean : ℚ) :
    ∀ b ∈ dgenBranch cfg pc cur_nimg gain dgenMean, dInvoked cfg cur_nimg = true := by
  unfold dgenBranch
  split_ifs with h
  · simp [h.1]
  · simp

theorem gmainBranch_cases (cfg : Cfg) (pc : Phase) (cur_nimg : ℕ) (gain : ℚ)
    (inp : GmainInputs) :
    (∃ e, gmainBranch cfg pc cur_nimg gain inp = Except.error e) ∨
    (∃ l, gmainBranch cfg pc cur_nimg gain inp = Except.ok l ∧
      l.length = (if pc = Phase.Gmain ∨ pc = Phase.Gboth then 1 else 0) ∧
      ∀ b ∈ l, b.throughG = true ∧ b.throughD = dInvoked cfg cur_nimg) := by
  unfold gmainBranch
  by_cases hc : pc = Phase.Gmain ∨ pc = Phase.Gboth
  · cases hfe : lossReconE inp cur_nimg with
    | error e =>
      exact Or.inl ⟨e, by simp [hc, hfe]⟩
    | ok lr =>
      refine Or.inr ⟨[⟨(if dInvoked cfg cur_nimg then lr + inp.adv * cfg.gmain else lr) * gain,
          true, dInvoked cfg cur_nimg⟩], ?_, ?_, ?_⟩
      · simp [hc, hfe]
      · simp [hc]
      · intro b hb
        rw [List.mem_singleton] at hb
        subst hb
        exact ⟨rfl, rfl⟩
  · exact Or.inr ⟨[], by simp [hc], by simp [hc], by simp⟩

theorem drealBranch_cases (cfg : Cfg) (pc : Phase) (cur_nimg : ℕ)
    (gain drealMean : ℚ) (g : R1Grads) :
    (∃ e, drealBranch cfg pc cur_nimg gain drealMean g = Except.error e) ∨
    (∃ l, drealBranch cfg pc cur_nimg gain drealMean g = Except.ok l ∧
      l.length = (if dInvoked cfg cur_nimg = true
          ∧ (pc = Phase.Dmain ∨ pc = Phase.Dreg ∨ pc = Phase.Dboth) then 1 else 0) ∧
      ∀ b ∈ l, b.throughG = false ∧ b.throughD = true) := by
  unfold drealBranch
  by_cases hc : dInvoked cfg cur_nimg = true
      ∧ (pc = Phase.Dmain ∨ pc = Phase.Dreg ∨ pc = Phase.Dboth)
  · by_cases hr : pc = Phase.Dreg ∨ pc = Phase.Dboth
    · cases hfe : r1LossE cfg g with
      | error e =>
        exact Or.inl ⟨e, by simp [hc, hr, hfe]⟩
      | ok dr1 =>
        refine Or.inr ⟨[⟨((if pc = Phase.Dmain ∨ pc = Phase.Dboth then drealMean else 0) + dr1)
            * gain, false, true⟩], ?_, ?_, ?_⟩
        · simp [hc, hr, hfe]
        · simp [hc]
        · intro b hb
          rw [List.mem_singleton] at hb
          subst hb
          exact ⟨rfl, rfl⟩
    · have hDm : pc = Phase.Dmain := by
        rcases hc.2 with h | h | h
        · exact h
        · exact absurd (Or.inl h) hr
        · exact absurd (Or.inr h) hr
      refine Or.inr ⟨[⟨((if pc = Phase.Dmain ∨ pc = Phase.Dboth then drealMean else 0) + 0)
          * gain, false, true⟩], ?_, ?_, ?_⟩
      · simp [hc, hr, hDm]
      · simp [hc]
      · intro b hb
        rw [List.mem_singleton] at hb
        subst hb
        exact ⟨rfl, rfl⟩
  · exact Or.inr ⟨[], by simp [hc], by simp [hc], by simp⟩

theorem runStep_length (cfg : Cfg) (p : Phase) (cur_nimg : ℕ) (gain : ℚ)
    (inp : GmainInputs) (tvLoss dgenMean drealMean : ℚ) (g : R1Grads)
    (hok : (runStep cfg p cur_nimg gain inp tvLoss dgenMean drealMean g).error
        = Option.none) :
    (runStep cfg p cur_nimg gain inp tvLoss dgenMean drealMean g).passes.length
      = passCount cfg (collapsePhase cfg p) cur_nimg := by
  unfold runStep at hok ⊢
  by_cases hsr : cfg.has_superresolution
  · simp only [hsr, if_true] at hok ⊢
    rcases gmainBranch_cases cfg (collapsePhase cfg p) cur_nimg gain inp with
      ⟨e, he⟩ | ⟨l1, h1, hlen1, _⟩
    · rw [he] at hok
      simp at hok
    · rw [h1] at hok ⊢
      rcases drealBranch_cases cfg (collapsePhase cfg p) cur_nimg gain drealMean g with
        ⟨e, he⟩ | ⟨l4, h4, hlen4, _⟩
      · rw [he] at hok
        simp at hok
      · rw [h4] at hok ⊢
        simp [passCount, hlen1, hlen4, gregBranch_length, dgenBranch_length, add_assoc]
  · simp [hsr] at hok

theorem runStep_both_only_when_D_active (cfg : Cfg) (p : Phase) (cur_nimg : ℕ)
    (gain : ℚ) (inp : GmainInputs) (tvLoss dgenMean drealMean : ℚ) (g : R1Grads) :
    ∀ b ∈ (runStep cfg p cur_nimg gain inp tvLoss dgenMean drealMean g).passes,
      b.throughG = true → b.throughD = true → dInvoked cfg cur_nimg = true := by
  unfold runStep
  by_cases hsr : cfg.has_superresolution
  · simp only [hsr, if_true]
    rcases gmainBranch_cases cfg (collapsePhase cfg p) cur_nimg gain inp with
      ⟨e, he⟩ | ⟨l1, h1, _, hfl1⟩
    · rw [he]
      simp
    · rw [h1]
      rcases drealBranch_cases cfg (collapsePhase cfg p) cur_nimg gain drealMean g with
        ⟨e, he⟩ | ⟨l4, h4, _, hfl4⟩
      · rw [he]
        intro b hb hG hD
        simp only [List.mem_append] at hb
        rcases hb with (hb1 | hb2) | hb3
        · have := (hfl1 b hb1).2
          rw [hD] at this
          exact this.symm
        · have := (gregBranch_flags cfg _ gain tvLoss b hb2).2
          rw [hD] at this
          simp at this
        · exact dgenBranch_flags cfg _ cur_nimg gain dgenMean b hb3
      · rw [h4]
        intro b hb hG hD
        simp only [List.mem_append] at hb
        rcases hb with ((hb1 | hb2) | hb3) | hb4
        · have := (hfl1 b hb1).2
          rw [hD] at this
          exact this.symm
        · have := (gregBranch_flags cfg _ gain tvLoss b hb2).2
          rw [hD] at this
          simp at this
        · exact dgenBranch_flags cfg _ cur_nimg gain dgenMean b hb3
        · have := (hfl4 b hb4).1
          rw [hG] at this
          simp at this
  · simp [hsr]

/-- C1 (counterexample): in `cfgBase` (all regularizers armed, warm-up
1 kimg), `Dmain` survives phase collapse, yet at `cur_nimg = 0` (before
warm-up) the invocation issues ZERO backward passes; `Gboth` at
`cur_nimg = 2000` issues TWO backward passes (reconstruction+adversarial
and density-TV); and the single `Gmain` backward pass at `cur_nimg =
2000` runs through both the generator and the discriminator graphs.
Each part contradicts the claimed invariant. -/
theorem c1_counterexample :
    collapsePhase cfgBase Phase.Dmain = Phase.Dmain ∧
    runStep cfgBase Phase.Dmain 0 1 inpZero 0 0 0 gZero = ⟨[], Option.none⟩ ∧
    (runStep cfgBase Phase.Gboth 2000 1 inpZero 0 0 0 gZero).passes.length = 2 ∧
    (runStep cfgBase Phase.Gboth 2000 1 inpZero 0 0 0 gZero).error = Option.none ∧
    (runStep cfgBase Phase.Gmain 2000 1 inpZero 0 0 0 gZero).passes.map
        (fun b => (b.throughG, b.throughD)) = [(true, true)] := by
  refine ⟨?_, ?_, ?_, ?_, ?_⟩ <;>
    norm_num [runStep, collapsePhase, gmainBranch, gregBranch, dgenBranch,
      drealBranch, dInvoked, r1LossE, lossReconE, featureTermE, lossReconParts,
      lpipsTotal, l1Total, depthTerm, triplaneTerm, lossIdUsed, lossIdRaw,
      cfgBase, inpZero, gZero, Except.map] <;>
    decide

/-- C1 (amended): for every exception-free invocation, the number of
backward passes equals `passCount` — one for the reconstruction loss
when the collapsed phase is `Gmain`/`Gboth`, one for the density TV loss
when it is `Greg`/`Gboth` with `density_reg > 0` and the `'l1'` reg
type, and, only past the discrimination warm-up with `use_D`, one for
`Dgen` (`Dmain`/`Dboth`) and one for `Dreal`+R1 (`Dmain`/`Dreg`/`Dboth`)
— so a collapsed non-`none` phase can issue zero or two passes, not
always exactly one.  Every pass's scalar is the gain-1 scalar multiplied
by the caller's gain.  A pass whose graph contains both generator and
discriminator evaluations can exist (adversarial `Gmain` term, `Dgen`
term), but only once the discriminator is active. -/
theorem c1_backward_accounting (cfg : Cfg) (p : Phase) (cur_nimg : ℕ) (gain : ℚ)
    (inp : GmainInputs) (tvLoss dgenMean drealMean : ℚ) (g : R1Grads)
    (hok : (runStep cfg p cur_nimg gain inp tvLoss dgenMean drealMean g).error
        = Option.none) :
    (runStep cfg p cur_nimg gain inp tvLoss dgenMean drealMean g).passes.length
        = passCount cfg (collapsePhase cfg p) cur_nimg ∧
    (runStep cfg p cur_nimg gain inp tvLoss dgenMean drealMean g).passes
        = (runStep cfg p cur_nimg 1 inp tvLoss dgenMean drealMean g).passes.map
            (fun b => ⟨b.loss * gain, b.throughG, b.throughD⟩) ∧
    (∀ b ∈ (runStep cfg p cur_nimg gain inp tvLoss dgenMean drealMean g).passes,
        b.throughG = true → b.throughD = true → dInvoked cfg cur_nimg = true) :=
  ⟨runStep_length cfg p cur_nimg gain inp tvLoss dgenMean drealMean g hok,
   runStep_gain_map cfg p cur_nimg gain inp tvLoss dgenMean drealMean g,
   runStep_both_only_when_D_active cfg p cur_nimg gain inp tvLoss dgenMean drealMean g⟩

/-- C1 (witness): the accounting theorem applied to `cfgBase` at phase
`Gboth`, `cur_nimg = 2000`, gain 3. -/
theorem c1_backward_accounting_witness :
    (runStep cfgBase Phase.Gboth 2000 3 inpZero 0 0 0 gZero).passes.length
        = passCount cfgBase (collapsePhase cfgBase Phase.Gboth) 2000 ∧
    (runStep cfgBase Phase.Gboth 2000 3 inpZero 0 0 0 gZero).passes
        = (runStep cfgBase Phase.Gboth 2000 1 inpZero 0 0 0 gZero).passes.map
            (fun b => ⟨b.loss * 3, b.throughG, b.throughD⟩) ∧
    (∀ b ∈ (runStep cfgBase Phase.Gboth 2000 3 inpZero 0 0 0 gZero).passes,
        b.throughG = true → b.throughD = true → dInvoked cfgBase 2000 = true) := by
  have hok : (runStep cfgBase Phase.Gboth 2000 3 inpZero 0 0 0 gZero).error
      = Option.none := by
    norm_num [runStep, collapsePhase, gmainBranch, gregBranch, dgenBranch,
      drealBranch, dInvoked, r1LossE, lossReconE, featureTermE, lossReconParts,
      lpipsTotal, l1Total, depthTerm, triplaneTerm, lossIdUsed, lossIdRaw,
      cfgBase, inpZero, gZero, Except.map]
    decide
  exact c1_backward_accounting cfgBase Phase.Gboth 2000 3 inpZero 0 0 0 gZero hok

/-- C3: in single-discrimination mode (`dual_discrimination = False`)
with a nonzero `r1_gamma`, `use_D`, and the counter past warm-up, an
R1-regularization step (`Dreg`) does NOT evaluate to the combined
penalty: line 488 reads `r1_penalty_seg`, which the single-discrimination
branch (lines 479-487) never assigns, so the step raises
`UnboundLocalError` and issues no backward pass — the claim's intended
combination (seg component zeroed like the uv one) is what the dual
branch does, and the single branch omits the assignment. -/
theorem c3_single_discrimination_r1_crash :
    cfgSingle.dual_discrimination = false ∧
    cfgSingle.r1_gamma ≠ 0 ∧
    cfgSingle.use_D = true ∧
    cfgSingle.has_superresolution = true ∧
    collapsePhase cfgSingle Phase.Dreg = Phase.Dreg ∧
    r1LossE cfgSingle gZero =
      Except.error "UnboundLocalError: local variable r1_penalty_seg referenced before assignment" ∧
    runStep cfgSingle Phase.Dreg 1000 1 inpZero 0 0 0 gZero =
      ⟨[], Option.some "UnboundLocalError: local variable r1_penalty_seg referenced before assignment"⟩ := by
  refine ⟨rfl, by norm_num [cfgSingle, cfgBase], rfl, rfl, ?_, rfl, ?_⟩
  · norm_num [collapsePhase, cfgSingle, cfgBase]
  · norm_num [runStep, collapsePhase, gmainBranch, gregBranch, dgenBranch,
      drealBranch, dInvoked, r1LossE, cfgSingle, cfgBase]
    decide
